import Mathlib

/-!
Verification of `argus.py` (Argus v1.1.0, a health-monitoring daemon) against
its natural-language specification.

The Python source is shallowly embedded below:
* `ServiceState` with `record_success` / `record_failure` is the per-endpoint
  hysteresis state machine (src/argus.py lines 327-353); Python mutation is
  modelled by returning the transition flag together with the updated state.
* `sendLoop` / `send_discord_embed` model the webhook delivery retry loop
  (lines 184-264); the sink is a list of responses consumed one per POST, and
  Python exceptions that escape the function are an explicit outcome.
* `check_loki` / `check_grafana` model the probe functions (lines 271-308),
  with the HTTP outcome (status/text/JSON-parse result, or a transport error)
  as explicit input and uncaught Python exceptions as an `Except.error`.
* `interruptibleWait` models the sliced inter-cycle sleep of `main`
  (lines 566-571), with the shutdown flag as a function of the check index.

Machine floats (`retry_after`) are modelled as rationals; JSON numeric values
are carried as rationals as well.
-/

namespace Argus

/-- State of `ServiceState` (src/argus.py lines 327-335). -/
structure ServiceState where
  name : String
  threshold : Nat
  consecutive_failures : Nat
  is_healthy : Bool
  last_reason : String
deriving DecidableEq, Repr

/-- `ServiceState.__init__`: starts healthy with zero consecutive failures. -/
def ServiceState.init (name : String) (threshold : Nat) : ServiceState :=
  { name := name
    threshold := threshold
    consecutive_failures := 0
    is_healthy := true
    last_reason := "" }

/-- `ServiceState.record_success` (lines 337-344): zeroes the failure counter;
if the state was unhealthy it becomes healthy, clears `last_reason` and the
call reports a transition (`true`). Returns (transition flag, updated state). -/
def ServiceState.record_success (s : ServiceState) : Bool × ServiceState :=
  let s1 := { s with consecutive_failures := 0 }
  if !s1.is_healthy then
    (true, { s1 with is_healthy := true, last_reason := "" })
  else
    (false, s1)

/-- `ServiceState.record_failure` (lines 346-353): increments the failure
counter, stores the reason unconditionally; if healthy and the counter has
reached the threshold it becomes unhealthy and the call reports a transition. -/
def ServiceState.record_failure (s : ServiceState) (reason : String) : Bool × ServiceState :=
  let s1 := { s with consecutive_failures := s.consecutive_failures + 1,
                     last_reason := reason }
  if s1.is_healthy ∧ s1.threshold ≤ s1.consecutive_failures then
    (true, { s1 with is_healthy := false })
  else
    (false, s1)

/-- One probe result fed to a `ServiceState` by the main loop. -/
inductive Ev where
  | success
  | failure (reason : String)
deriving DecidableEq, Repr

/-- Apply one probe result (the main loop calls `record_success` on a healthy
probe and `record_failure reason` otherwise). -/
def stepEv (s : ServiceState) : Ev → Bool × ServiceState
  | .success => s.record_success
  | .failure r => s.record_failure r

/-- Apply a sequence of probe results in order. -/
def runEvents (s : ServiceState) : List Ev → ServiceState
  | [] => s
  | e :: es => runEvents (stepEv s e).2 es

/-- Count of consecutive failures at the end of the event list, starting from
`c` pending failures: reset by each success, incremented by each failure.
This is the specification's "failures recorded since the last success". -/
def failsAcc (c : Nat) : List Ev → Nat
  | [] => c
  | .success :: es => failsAcc 0 es
  | .failure _ :: es => failsAcc (c + 1) es

/-- The specification's "consecutive failures since the last success (or since
construction)" for a whole trace. -/
def failsSinceSuccess (es : List Ev) : Nat := failsAcc 0 es

/-- Python exceptions relevant to the code paths modelled here. -/
inductive PyErr where
  | valueError
  | typeError
  | attributeError
  | keyError
deriving DecidableEq, Repr

/-- A JSON value as returned by `resp.json()`. Numbers are carried as
rationals (a modelling of Python floats adequate for the arithmetic the
code performs: comparison and `min`). -/
inductive JVal where
  | null
  | bool (b : Bool)
  | num (q : ℚ)
  | str (s : String)
  | arr (elems : List JVal)
  | obj (fields : List (String × JVal))

/-- Association lookup on a JSON object, first match (Python dict keys are
unique, so first match is exact). -/
def jLookup (key : String) : List (String × JVal) → Option JVal
  | [] => none
  | (k, v) :: rest => if k = key then some v else jLookup key rest

/-- Digits-only check for the decimal parser. -/
def allDigits (cs : List Char) : Bool := cs.all (·.isDigit)

/-- Value of a digit string (most significant first). -/
def digitsToNat (cs : List Char) : Nat :=
  cs.foldl (fun n c => n * 10 + (c.toNat - 48)) 0

/-- Model of Python `float(string)` restricted to plain decimal literals
(optional sign, digits, optional fractional part); other strings are
rejected, which Python reports as a `ValueError`. Exotic accepted forms
(exponents, inf/nan, underscores) are outside this model; no claim depends
on them. -/
def parseFloatQ (s : String) : Option ℚ :=
  let t := s.trim
  let (neg, body) :=
    if t.startsWith "-" then (true, t.drop 1)
    else if t.startsWith "+" then (false, t.drop 1)
    else (false, t)
  match body.splitOn "." with
  | [ip] =>
    if allDigits ip.data ∧ ip.data ≠ [] then
      some (if neg then -(digitsToNat ip.data : ℚ) else (digitsToNat ip.data : ℚ))
    else none
  | [ip, fp] =>
    if allDigits ip.data ∧ allDigits fp.data ∧ (ip.data ≠ [] ∨ fp.data ≠ []) then
      let v : ℚ := (digitsToNat ip.data : ℚ)
        + (digitsToNat fp.data : ℚ) / ((10 : ℚ) ^ fp.data.length)
      some (if neg then -v else v)
    else none
  | _ => none

/-- Model of Python `float(x)` on a JSON value: numbers and booleans convert,
numeric strings parse (else `ValueError`), `None`/lists/objects raise
`TypeError`. -/
def pyFloat : JVal → Except PyErr ℚ
  | .num q => .ok q
  | .bool b => .ok (if b then 1 else 0)
  | .str s =>
    match parseFloatQ s with
    | some q => .ok q
    | none => .error .valueError
  | .null => .error .typeError
  | .arr _ => .error .typeError
  | .obj _ => .error .typeError

/-- One sink response to a webhook POST, as `send_discord_embed` observes it:
either an HTTP response with a status code and the outcome of `resp.json()`
(`Except.error ()` = body is not valid JSON, so `resp.json()` raises
`ValueError`), or a transport-level failure (`requests.RequestException`). -/
inductive SinkResp where
  | resp (status : Nat) (body : Except Unit JVal)
  | exn

/-- Model of lines 231-234:
`try: retry_after = float(resp.json().get("retry_after", backoff))`
`except (ValueError, KeyError): retry_after = float(backoff)`.
Only `ValueError`/`KeyError` are caught: `.get` on a non-dict raises
`AttributeError` and `float` on `None`/list/dict raises `TypeError`, and both
escape. -/
def retryAfter429 (body : Except Unit JVal) (backoff : Nat) : Except PyErr ℚ :=
  match body with
  | .error _ => .ok (backoff : ℚ)
  | .ok j =>
    match j with
    | .obj fields =>
      match jLookup "retry_after" fields with
      | none => .ok (backoff : ℚ)
      | some v =>
        match pyFloat v with
        | .ok q => .ok q
        | .error .valueError => .ok (backoff : ℚ)
        | .error .keyError => .ok (backoff : ℚ)
        | .error e => .error e
    | _ => .error .attributeError

/-- Loop state of `send_discord_embed`: the `attempt`, `rate_limit_hits` and
`backoff` locals, plus instrumentation (`posts` = POSTs issued so far,
`sleeps` = durations passed to `time.sleep`, in order). -/
structure SendSt where
  attempt : Nat
  hits : Nat
  backoff : Nat
  posts : Nat
  sleeps : List ℚ
deriving DecidableEq, Repr

/-- How a call to `send_discord_embed` ends: a returned boolean, an uncaught
Python exception escaping the function, or (model artifact) the supplied
response list ran out while the loop still wanted to POST. -/
inductive SendOutcome where
  | ok (b : Bool) (st : SendSt)
  | exn (e : PyErr) (st : SendSt)
  | starved (st : SendSt)
deriving DecidableEq, Repr

/-- The retry loop of `send_discord_embed` (lines 210-264), consuming one sink
response per POST. `max_attempts = 3`, `max_rate_limit_retries = 5`,
`backoff` starts at 2 and doubles after each consumed attempt; a 429 response
increments `rate_limit_hits`, returns `False` once the hits exceed 5, and
otherwise sleeps `min(retry_after, 60)` and retries without consuming an
attempt; 200/204 returns `True`; any other status or a transport failure
consumes an attempt and sleeps the current backoff. -/
def sendLoop : List SinkResp → SendSt → SendOutcome
  | [], st => if st.attempt < 3 then .starved st else .ok false st
  | r :: rs, st =>
    if st.attempt < 3 then
      let st1 : SendSt := { st with posts := st.posts + 1 }
      match r with
      | .exn =>
        sendLoop rs { st1 with attempt := st1.attempt + 1,
                               sleeps := st1.sleeps ++ [(st1.backoff : ℚ)],
                               backoff := st1.backoff * 2 }
      | .resp status body =>
        if status = 429 then
          let st2 : SendSt := { st1 with hits := st1.hits + 1 }
          if 5 < st2.hits then .ok false st2
          else
            match retryAfter429 body st2.backoff with
            | .error e => .exn e st2
            | .ok ra => sendLoop rs { st2 with sleeps := st2.sleeps ++ [min ra 60] }
        else if status = 200 ∨ status = 204 then .ok true st1
        else
          sendLoop rs { st1 with attempt := st1.attempt + 1,
                                 sleeps := st1.sleeps ++ [(st1.backoff : ℚ)],
                                 backoff := st1.backoff * 2 }
    else .ok false st

/-- Initial loop state: `attempt = 0`, `rate_limit_hits = 0`, `backoff = 2`. -/
def sendInit : SendSt :=
  { attempt := 0, hits := 0, backoff := 2, posts := 0, sleeps := [] }

/-- `send_discord_embed` run against a given sequence of sink responses. -/
def send_discord_embed (rs : List SinkResp) : SendOutcome :=
  sendLoop rs sendInit

/-- Final loop state of an outcome. -/
def outSt : SendOutcome → SendSt
  | .ok _ st => st
  | .exn _ st => st
  | .starved st => st

/-- A sink response that the code treats as a failed normal attempt:
a transport failure, or any status other than 429, 200 and 204. -/
def failResp (r : SinkResp) : Prop :=
  r = .exn ∨ ∃ c b, r = .resp c b ∧ c ≠ 429 ∧ c ≠ 200 ∧ c ≠ 204

/-- A 429 response with no `retry_after` hint in the body. -/
def r429empty : SinkResp := .resp 429 (.ok (.obj []))

/-- What one `session.get` in a probe function produces, as the probe observes
it: an HTTP response carrying the status code, the body text and the outcome
of `resp.json()` (`Except.error ()` = invalid JSON, `ValueError`), or one of
the exceptions the probes catch (`requests.ConnectionError`,
`requests.Timeout`, any other `requests.RequestException`). -/
inductive HttpOutcome where
  | resp (status : Nat) (text : String) (body : Except Unit JVal)
  | connError (msg : String)
  | timeout
  | reqError (msg : String)

/-- Model of Python `str.lower()`. -/
def lowerStr (s : String) : String := ⟨s.data.map Char.toLower⟩

/-- Whether the character list `s` starts with `pat`. -/
def charStarts : List Char → List Char → Bool
  | _, [] => true
  | [], _ :: _ => false
  | c :: cs, p :: ps => c == p && charStarts cs ps

/-- Whether `pat` occurs as a contiguous run inside `s`
(Python `pat in s` on strings). -/
def charHas (s pat : List Char) : Bool :=
  match s with
  | [] => pat.isEmpty
  | _ :: rest => charStarts s pat || charHas rest pat

/-- Model of Python `str.rstrip("/")`. -/
def rstripSlash (s : String) : String :=
  ⟨(s.data.reverse.dropWhile (· == Char.ofNat 47)).reverse⟩

/-- Python `data.get("database") != "ok"` is false exactly when the value is
the string `"ok"`. -/
def isStrOk : Option JVal → Bool
  | some (.str s) => s == "ok"
  | _ => false

/-- Display rendering of `data.get("database")` used inside the diagnostic
f-string; shallow rendering only (the claims do not depend on message text). -/
def showOptJVal : Option JVal → String
  | none => "None"
  | some .null => "None"
  | some (.bool b) => cond b "True" "False"
  | some (.num q) => toString q
  | some (.str s) => s
  | some (.arr _) => "list"
  | some (.obj _) => "dict"

/-- `check_loki` (src/argus.py lines 271-286): GET `url.rstrip("/") + "/ready"`,
expect status 200 and a body containing "ready" (case-insensitive); every
caught exception becomes a `(False, reason)` result. The result is wrapped in
`Except PyErr` so that "the function raises past its boundary" is expressible;
`check_loki` has no uncaught-exception path. -/
def check_loki (o : HttpOutcome) (url : String) (timeout : Nat) :
    Except PyErr (Bool × String) :=
  let endpoint := rstripSlash url ++ "/ready"
  match o with
  | .resp status text _ =>
    if status ≠ 200 then
      .ok (false, "HTTP " ++ toString status ++ " from " ++ endpoint)
    else if !charHas (lowerStr text).data "ready".data then
      .ok (false, "Response body does not contain ready: " ++ text.take 120)
    else
      .ok (true, "Loki is ready")
  | .connError m => .ok (false, "Connection error: " ++ m)
  | .timeout => .ok (false, "Request timed out after " ++ toString timeout ++ "s")
  | .reqError m => .ok (false, "Request failed: " ++ m)

/-- `check_grafana` (src/argus.py lines 289-308): GET
`url.rstrip("/") + "/api/health"`, expect status 200, a JSON body and
`data.get("database") == "ok"`. A body that is not valid JSON is caught
(`except ValueError`) and reported; but `data.get` on a valid JSON body that
is not an object raises `AttributeError`, which no `except` clause covers, so
it escapes the function — modelled as `Except.error .attributeError`. -/
def check_grafana (o : HttpOutcome) (url : String) (timeout : Nat) :
    Except PyErr (Bool × String) :=
  let endpoint := rstripSlash url ++ "/api/health"
  match o with
  | .resp status text body =>
    if status ≠ 200 then
      .ok (false, "HTTP " ++ toString status ++ " from " ++ endpoint)
    else
      match body with
      | .error _ => .ok (false, "Invalid JSON response: " ++ text.take 120)
      | .ok data =>
        match data with
        | .obj fields =>
          let dbv := jLookup "database" fields
          if !isStrOk dbv then
            .ok (false, "Database field is " ++ showOptJVal dbv ++ ", expected ok")
          else
            .ok (true, "Grafana is healthy")
        | _ => .error .attributeError
  | .connError m => .ok (false, "Connection error: " ++ m)
  | .timeout => .ok (false, "Request timed out after " ++ toString timeout ++ "s")
  | .reqError m => .ok (false, "Request failed: " ++ m)

/-- Whether a probe call returned normally, i.e. produced a `(healthy, reason)`
pair instead of letting an exception escape. -/
def returnsNormally (r : Except PyErr (Bool × String)) : Bool :=
  match r with
  | .ok _ => true
  | .error _ => false

/-- The sliced inter-cycle wait of `main` (src/argus.py lines 566-571):
`for _ in range(check_interval): if _shutdown_requested: break; time.sleep(1)`.
`f i` is the value of the shutdown flag observed at the `i`-th check
(`i = 0, 1, ...`); the result is the list of sleep durations executed. -/
def waitFrom (f : Nat → Bool) (i : Nat) : Nat → List Nat
  | 0 => []
  | fuel + 1 => if f i then [] else 1 :: waitFrom f (i + 1) fuel

/-- The whole wait for a configured interval of `n` seconds. -/
def interruptibleWait (n : Nat) (f : Nat → Bool) : List Nat := waitFrom f 0 n

/-!  ## Theorems  -/

theorem runEvents_append (s : ServiceState) (xs ys : List Ev) :
    runEvents s (xs ++ ys) = runEvents (runEvents s xs) ys := by
  induction xs generalizing s with
  | nil => rfl
  | cons e xs ih => simp [runEvents, ih]

theorem record_success_eq (s : ServiceState) :
    s.record_success =
      (!s.is_healthy,
        { s with consecutive_failures := 0,
                 is_healthy := true,
                 last_reason := cond s.is_healthy s.last_reason "" }) := by
  cases h : s.is_healthy <;> simp [ServiceState.record_success, h]

theorem record_failure_eq (s : ServiceState) (r : String) :
    s.record_failure r =
      (s.is_healthy && decide (s.threshold ≤ s.consecutive_failures + 1),
        { s with consecutive_failures := s.consecutive_failures + 1,
                 last_reason := r,
                 is_healthy :=
                   s.is_healthy && decide (s.consecutive_failures + 1 < s.threshold) }) := by
  cases h : s.is_healthy with
  | false => simp [ServiceState.record_failure, h]
  | true =>
    by_cases ht : s.threshold ≤ s.consecutive_failures + 1 <;>
      simp [ServiceState.record_failure, h, ht] <;> omega

/-- Core invariant of the state machine: if `is_healthy` currently reflects
"fewer than `threshold` consecutive failures", it keeps doing so along any
event sequence, and the failure counter tracks `failsAcc`. Needs a positive
threshold (the config layer rejects `FAILURE_THRESHOLD < 1`). -/
theorem runEvents_invariant (es : List Ev) (s : ServiceState)
    (ht : 1 ≤ s.threshold)
    (hh : s.is_healthy = decide (s.consecutive_failures < s.threshold)) :
    (runEvents s es).threshold = s.threshold ∧
    (runEvents s es).consecutive_failures = failsAcc s.consecutive_failures es ∧
    (runEvents s es).is_healthy
      = decide (failsAcc s.consecutive_failures es < s.threshold) := by
  induction es generalizing s with
  | nil => exact ⟨rfl, rfl, hh⟩
  | cons e es ih =>
    cases e with
    | success =>
      have h2 := ih (s := (stepEv s Ev.success).2) ?_ ?_
      · simpa [runEvents, stepEv, record_success_eq, failsAcc] using h2
      · simp [stepEv, record_success_eq]; omega
      · simp [stepEv, record_success_eq]; omega
    | failure r =>
      have h2 := ih (s := (stepEv s (Ev.failure r)).2) ?_ ?_
      · simpa [runEvents, stepEv, record_failure_eq, failsAcc] using h2
      · simp [stepEv, record_failure_eq]; omega
      · simp [stepEv, record_failure_eq, hh]
        by_cases h1 : s.consecutive_failures < s.threshold <;>
          by_cases h2 : s.consecutive_failures + 1 < s.threshold <;>
            simp [h1, h2] <;> omega

theorem sendLoop_done (rs : List SinkResp) (st : SendSt) (h : 3 ≤ st.attempt) :
    sendLoop rs st = .ok false st := by
  cases rs <;> · simp only [sendLoop]; rw [if_neg (by omega)]

/-- A transport failure or a non-429 non-200/204 status consumes one attempt:
the loop continues with `attempt + 1`, one more POST issued, the current
backoff slept and the backoff doubled. -/
theorem sendLoop_fail_step (r : SinkResp) (hr : failResp r) (rs : List SinkResp)
    (st : SendSt) (h : st.attempt < 3) :
    sendLoop (r :: rs) st
      = sendLoop rs { st with attempt := st.attempt + 1,
                              posts := st.posts + 1,
                              backoff := st.backoff * 2,
                              sleeps := st.sleeps ++ [(st.backoff : ℚ)] } := by
  rcases hr with h1 | ⟨c, b, rfl, hc1, hc2, hc3⟩
  · subst h1; simp [sendLoop, h]
  · simp [sendLoop, h, hc1, hc2, hc3]

/-- A 429 response once the hit counter is already at the cap: the sixth hit
returns `False` without sleeping. -/
theorem sendLoop_429_capped (b : Except Unit JVal) (rs : List SinkResp)
    (st : SendSt) (h : st.attempt < 3) (hc : 5 < st.hits + 1) :
    sendLoop (SinkResp.resp 429 b :: rs) st
      = .ok false { st with posts := st.posts + 1, hits := st.hits + 1 } := by
  simp [sendLoop, h, hc]

/-- A 429 response below the cap whose `retry_after` parse raises an exception
not covered by the `except (ValueError, KeyError)` clause: the exception
escapes the function. -/
theorem sendLoop_429_exn (b : Except Unit JVal) (e : PyErr) (rs : List SinkResp)
    (st : SendSt) (h : st.attempt < 3) (hc : ¬ 5 < st.hits + 1)
    (hb : retryAfter429 b st.backoff = .error e) :
    sendLoop (SinkResp.resp 429 b :: rs) st
      = .exn e { st with posts := st.posts + 1, hits := st.hits + 1 } := by
  simp [sendLoop, h, hc, hb]

/-- A 429 response below the cap with a benign body: the loop sleeps the
clamped hint and retries without consuming an attempt. -/
theorem sendLoop_429_retry (b : Except Unit JVal) (ra : ℚ) (rs : List SinkResp)
    (st : SendSt) (h : st.attempt < 3) (hc : ¬ 5 < st.hits + 1)
    (hb : retryAfter429 b st.backoff = .ok ra) :
    sendLoop (SinkResp.resp 429 b :: rs) st
      = sendLoop rs { st with hits := st.hits + 1,
                              posts := st.posts + 1,
                              sleeps := st.sleeps ++ [min ra 60] } := by
  simp [sendLoop, h, hc, hb]

/-- A 200/204 response returns `True` immediately. -/
theorem sendLoop_success (c : Nat) (b : Except Unit JVal) (rs : List SinkResp)
    (st : SendSt) (h : st.attempt < 3) (hc : c = 200 ∨ c = 204) :
    sendLoop (SinkResp.resp c b :: rs) st
      = .ok true { st with posts := st.posts + 1 } := by
  rcases hc with rfl | rfl <;> simp [sendLoop, h]

/-- Resource bound on the retry loop: starting from a reachable loop state, it
issues at most `(3 - attempt) + (6 - hits)` further POSTs, and the final
attempt and hit counters stay within 3 and 6. -/
theorem sendLoop_bounds (rs : List SinkResp) : ∀ st : SendSt,
    st.attempt ≤ 3 → st.hits ≤ 5 →
    (outSt (sendLoop rs st)).posts
        ≤ st.posts + (3 - st.attempt) + (6 - st.hits)
    ∧ (outSt (sendLoop rs st)).attempt ≤ 3
    ∧ (outSt (sendLoop rs st)).hits ≤ 6 := by
  induction rs with
  | nil =>
    intro st ha hh
    simp only [sendLoop]
    split <;> simp [outSt] <;> omega
  | cons r rs ih =>
    intro st ha hh
    by_cases h3 : st.attempt < 3
    · cases r with
      | exn =>
        rw [sendLoop_fail_step _ (Or.inl rfl) _ _ h3]
        obtain ⟨p1, p2, p3⟩ :=
          ih { st with attempt := st.attempt + 1,
                       posts := st.posts + 1,
                       backoff := st.backoff * 2,
                       sleeps := st.sleeps ++ [(st.backoff : ℚ)] }
            (by simp; omega) (by simpa using hh)
        refine ⟨?_, p2, p3⟩
        simp at p1 ⊢
        omega
      | resp status body =>
        by_cases h429 : status = 429
        · subst h429
          by_cases hcap : 5 < st.hits + 1
          · rw [sendLoop_429_capped _ _ _ h3 hcap]
            simp [outSt]
            omega
          · cases hb : retryAfter429 body st.backoff with
            | error e =>
              rw [sendLoop_429_exn _ _ _ _ h3 hcap hb]
              simp [outSt]
              omega
            | ok ra =>
              rw [sendLoop_429_retry _ _ _ _ h3 hcap hb]
              obtain ⟨p1, p2, p3⟩ :=
                ih { st with hits := st.hits + 1,
                             posts := st.posts + 1,
                             sleeps := st.sleeps ++ [min ra 60] }
                  (by simpa using ha) (by simp; omega)
              refine ⟨?_, p2, p3⟩
              simp at p1 ⊢
              omega
        · by_cases hok : status = 200 ∨ status = 204
          · rw [sendLoop_success _ _ _ _ h3 hok]
            simp [outSt]
            omega
          · rw [sendLoop_fail_step _ (Or.inr ⟨status, body, rfl, h429,
                fun h => hok (Or.inl h), fun h => hok (Or.inr h)⟩) _ _ h3]
            obtain ⟨p1, p2, p3⟩ :=
              ih { st with attempt := st.attempt + 1,
                           posts := st.posts + 1,
                           backoff := st.backoff * 2,
                           sleeps := st.sleeps ++ [(st.backoff : ℚ)] }
                (by simp; omega) (by simpa using hh)
            refine ⟨?_, p2, p3⟩
            simp at p1 ⊢
            omega
    · rw [sendLoop_done _ _ (by omega)]
      simp [outSt]
      omega

/-- A run of successes applied to a healthy state keeps it healthy and keeps
`last_reason` unchanged (`record_success` clears the reason only when it
recovers from an unhealthy state). -/
theorem runEvents_successes (qs : List Ev) : ∀ s : ServiceState,
    (∀ e ∈ qs, e = Ev.success) → s.is_healthy = true →
    (runEvents s qs).last_reason = s.last_reason
    ∧ (runEvents s qs).is_healthy = true := by
  induction qs with
  | nil => intro s _ hh; exact ⟨rfl, hh⟩
  | cons q qs ih =>
    intro s hq hh
    have hq1 : q = Ev.success := hq q (by simp)
    subst hq1
    have h2 := ih (stepEv s Ev.success).2 (fun e he => hq e (by simp [he])) ?_
    · constructor
      · rw [runEvents, h2.1]
        simp [stepEv, record_success_eq, hh]
      · rw [runEvents]
        exact h2.2
    · simp [stepEv, record_success_eq]

/-- The failure counter over an all-failure event list grows by its length. -/
theorem failsAcc_failures (g : Nat → String) (l : List Nat) : ∀ c : Nat,
    failsAcc c (l.map fun j => Ev.failure (g j)) = c + l.length := by
  induction l with
  | nil => intro c; simp [failsAcc]
  | cons x xs ih => intro c; simp [failsAcc, ih]; omega

theorem waitFrom_length_le (f : Nat → Bool) (j : Nat) (hj : f j = true) :
    ∀ fuel i : Nat, i ≤ j → (waitFrom f i fuel).length ≤ j - i := by
  intro fuel
  induction fuel with
  | zero => intro i _; simp [waitFrom]
  | succ n ih =>
    intro i hij
    by_cases h : f i = true
    · simp [waitFrom, h]
    · have hne : i ≠ j := fun e => h (e ▸ hj)
      have h2 := ih (i + 1) (by omega)
      simp only [waitFrom, h, if_false, Bool.false_eq_true, List.length_cons]
      omega

theorem waitFrom_all_one (f : Nat → Bool) : ∀ fuel i : Nat,
    ∀ d ∈ waitFrom f i fuel, d = 1 := by
  intro fuel
  induction fuel with
  | zero => intro i d hd; simp [waitFrom] at hd
  | succ n ih =>
    intro i d hd
    by_cases h : f i = true
    · simp [waitFrom, h] at hd
    · simp only [waitFrom, h, if_false, Bool.false_eq_true, List.mem_cons] at hd
      rcases hd with rfl | hd
      · rfl
      · exact ih (i + 1) d hd

theorem waitFrom_full (f : Nat → Bool) : ∀ fuel i : Nat,
    (∀ m, m < fuel → f (i + m) = false) → (waitFrom f i fuel).length = fuel := by
  intro fuel
  induction fuel with
  | zero => intro i _; simp [waitFrom]
  | succ n ih =>
    intro i h
    have h0 : f i = false := by simpa using h 0 (by omega)
    have h2 := ih (i + 1) (fun m hm => by
      rw [show i + 1 + m = i + (m + 1) by omega]
      exact h (m + 1) (by omega))
    simp [waitFrom, h0, h2]

/-!  ## Claims  -/

/-- C1: for every threshold `t ≥ 1` and every sequence of
`record_success`/`record_failure` calls on a fresh `ServiceState`,
`is_healthy` is true exactly while fewer than `t` consecutive failures have
been recorded since the last success (or since construction); moreover
`record_failure` leaves the state healthy iff it was healthy and the new
counter is still below the threshold (so a true-to-false flip happens only in
a `record_failure` reaching the threshold while healthy), and `record_success`
always results in a healthy state (so a false-to-true flip happens only in a
`record_success` call). -/
theorem claim_C1 (t : Nat) (ht : 1 ≤ t) (name : String) (es : List Ev) :
    ((runEvents (ServiceState.init name t) es).is_healthy
        = decide (failsSinceSuccess es < t))
    ∧ (∀ (s : ServiceState) (r : String),
        (s.record_failure r).2.is_healthy
          = (s.is_healthy && decide (s.consecutive_failures + 1 < s.threshold)))
    ∧ (∀ s : ServiceState, s.record_success.2.is_healthy = true) := by
  refine ⟨?_, ?_, ?_⟩
  · have h := runEvents_invariant es (ServiceState.init name t)
      (by simpa [ServiceState.init] using ht)
      (by simp [ServiceState.init]; omega)
    simpa [ServiceState.init, failsSinceSuccess] using h.2.2
  · intro s r; simp [record_failure_eq]
  · intro s; simp [record_success_eq]

/-- Witness for C1 at threshold 2 and the trace fail, fail. -/
theorem claim_C1_witness :
    (runEvents (ServiceState.init "Loki" 2) [Ev.failure "down", Ev.failure "down"]).is_healthy
      = decide (failsSinceSuccess [Ev.failure "down", Ev.failure "down"] < 2) :=
  (claim_C1 2 (by decide) "Loki" [Ev.failure "down", Ev.failure "down"]).1

/-- C2: starting from a healthy state with a zeroed failure counter
(fresh construction, or just after a success), the `(i+1)`-th consecutive
`record_failure` call reports a transition exactly when `i + 1 = threshold`:
once on the call reaching the threshold, and never before or after. -/
theorem claim_C2 (s : ServiceState) (hh : s.is_healthy = true)
    (h0 : s.consecutive_failures = 0) (ht : 1 ≤ s.threshold)
    (f : Nat → String) (i : Nat) :
    ((runEvents s ((List.range i).map fun j => Ev.failure (f j))).record_failure (f i)).1
      = decide (i + 1 = s.threshold) := by
  obtain ⟨inv1, inv2, inv3⟩ :=
    runEvents_invariant ((List.range i).map fun j => Ev.failure (f j)) s ht
      (by rw [hh, h0]; simp; omega)
  rw [h0] at inv2 inv3
  have hfails : failsAcc 0 ((List.range i).map fun j => Ev.failure (f j)) = i := by
    simpa using failsAcc_failures f (List.range i) 0
  rw [hfails] at inv2 inv3
  simp only [record_failure_eq, inv1, inv2, inv3]
  rw [← Bool.decide_and, decide_eq_decide]
  omega

/-- Witness for C2: threshold 2, second consecutive failure transitions. -/
theorem claim_C2_witness :
    ((runEvents (ServiceState.init "Grafana" 2)
        ((List.range 1).map fun j => Ev.failure ((fun _ => "down") j))).record_failure
          ((fun _ => "down") 1)).1
      = decide (1 + 1 = (ServiceState.init "Grafana" 2).threshold) :=
  claim_C2 (ServiceState.init "Grafana" 2) rfl rfl (by decide) (fun _ => "down") 1

/-- C3: a single `record_success` call zeroes `consecutive_failures`, reports
a transition exactly when the state was unhealthy immediately before, always
leaves the state healthy, and leaves `last_reason` cleared exactly when it
recovered (unchanged when the state was already healthy, i.e. no transition
is reported then). -/
theorem claim_C3 (s : ServiceState) :
    s.record_success.1 = !s.is_healthy
    ∧ s.record_success.2.consecutive_failures = 0
    ∧ s.record_success.2.is_healthy = true
    ∧ s.record_success.2.last_reason = cond s.is_healthy s.last_reason "" := by
  simp [record_success_eq]

/-- C7: `record_failure` stores its reason unconditionally (even while already
unhealthy); `record_success` clears `last_reason` exactly on recovery; and at
trace level, after any history ending in a failure with reason `r` followed
only by successes, `last_reason` is still `r` — unless one of those successes
recovered the state (it was unhealthy after the failure run), in which case
`last_reason` is the empty string. -/
theorem claim_C7 (s : ServiceState) (pre : List Ev) (r : String) (qs : List Ev)
    (hqs : ∀ e ∈ qs, e = Ev.success) :
    (∀ (u : ServiceState) (r2 : String), (u.record_failure r2).2.last_reason = r2)
    ∧ (∀ u : ServiceState,
        u.record_success.2.last_reason = cond u.is_healthy u.last_reason "")
    ∧ (runEvents s (pre ++ Ev.failure r :: qs)).last_reason
        = (if qs = [] then r
           else cond (runEvents s (pre ++ [Ev.failure r])).is_healthy r "") := by
  refine ⟨fun u r2 => by simp [record_failure_eq],
          fun u => by simp [record_success_eq], ?_⟩
  have hsplit : pre ++ Ev.failure r :: qs = (pre ++ [Ev.failure r]) ++ qs := by simp
  rw [hsplit, runEvents_append]
  have hreason : (runEvents s (pre ++ [Ev.failure r])).last_reason = r := by
    rw [runEvents_append]
    simp [runEvents, stepEv, record_failure_eq]
  cases qs with
  | nil => simpa [runEvents] using hreason
  | cons q qs2 =>
    have hq1 : q = Ev.success := hqs q (by simp)
    subst hq1
    rw [if_neg (by simp)]
    cases hh : (runEvents s (pre ++ [Ev.failure r])).is_healthy with
    | true =>
      have h2 := runEvents_successes (Ev.success :: qs2)
        (runEvents s (pre ++ [Ev.failure r])) hqs hh
      rw [h2.1, hreason]
      rfl
    | false =>
      rw [runEvents]
      have hs3 := runEvents_successes qs2
        (stepEv (runEvents s (pre ++ [Ev.failure r])) Ev.success).2
        (fun e he => hqs e (by simp [he])) (by simp [stepEv, record_success_eq])
      rw [hs3.1]
      simp [stepEv, record_success_eq, hh]

/-- Witness for C7: threshold 1, a failure then a recovering success clears
the reason. -/
theorem claim_C7_witness :
    (∀ (u : ServiceState) (r2 : String), (u.record_failure r2).2.last_reason = r2)
    ∧ (∀ u : ServiceState,
        u.record_success.2.last_reason = cond u.is_healthy u.last_reason "")
    ∧ (runEvents (ServiceState.init "Loki" 1)
          ([] ++ Ev.failure "boom" :: [Ev.success])).last_reason
        = (if ([Ev.success] : List Ev) = [] then "boom"
           else cond (runEvents (ServiceState.init "Loki" 1)
              ([] ++ [Ev.failure "boom"])).is_healthy "boom" "") :=
  claim_C7 (ServiceState.init "Loki" 1) [] "boom" [Ev.success] (by decide)

/-- C4, as stated, is false: against a sink answering 429 to every POST the
code fails only on the sixth rate-limit hit (the cap `rate_limit_hits >
max_rate_limit_retries` fires when the counter reaches 6), not after exactly
five hits. Concretely: after five 429 hits the call is still running and a
following 200 makes it succeed, and against seven 429s it returns `False`
having POSTed (and been rate-limited) six times. -/
theorem claim_C4_counterexample :
    send_discord_embed (List.replicate 5 r429empty ++ [SinkResp.resp 200 (.error ())])
        = .ok true { attempt := 0, hits := 5, backoff := 2, posts := 6,
                     sleeps := [2, 2, 2, 2, 2] }
    ∧ send_discord_embed (List.replicate 7 r429empty)
        = .ok false { attempt := 0, hits := 6, backoff := 2, posts := 6,
                      sleeps := [2, 2, 2, 2, 2] } :=
  ⟨rfl, rfl⟩

/-- C4 (amended): for a sink whose first six responses are 429,
`send_discord_embed` returns `False` after exactly six rate-limited POSTs —
that is, after `MAX_RATE_LIMIT_RETRIES` (5) rate-limit retries (sleeps) — no
matter what the sink would answer later; the attempt counter is never
consumed by a 429 (it is still 0 at the failure), so the rate-limit abort is
distinct from exhausting the 3 normal attempts. -/
theorem claim_C4 (rest : List SinkResp) :
    sendLoop (List.replicate 6 r429empty ++ rest) sendInit
      = .ok false { attempt := 0, hits := 6, backoff := 2, posts := 6,
                    sleeps := [2, 2, 2, 2, 2] } :=
  rfl

set_option maxRecDepth 8192 in
/-- C5: against a sink answering every POST with a transport failure or a
non-2xx/non-429 status (e.g. 500), `send_discord_embed` makes exactly 3 POST
attempts and returns `False`, sleeping the current backoff between attempts —
2 then 4 time units between the three attempts (the code also sleeps the
doubled backoff, 8, once more after the final failed attempt before
returning) — and on a first 200 or 204 response it returns `True`
immediately, with a single POST and no sleeps. -/
theorem claim_C5 (r : SinkResp) (hr : failResp r) (c : Nat)
    (b : Except Unit JVal) (hc : c = 200 ∨ c = 204) :
    (∀ rest, sendLoop (r :: r :: r :: rest) sendInit
        = .ok false { attempt := 3, hits := 0, backoff := 16, posts := 3,
                      sleeps := [2, 4, 8] })
    ∧ (∀ rest, sendLoop (SinkResp.resp c b :: rest) sendInit
        = .ok true { attempt := 0, hits := 0, backoff := 2, posts := 1,
                     sleeps := [] }) := by
  constructor
  · intro rest
    rw [sendLoop_fail_step r hr _ _ (by decide)]
    rw [sendLoop_fail_step r hr _ _ (by decide)]
    rw [sendLoop_fail_step r hr _ _ (by decide)]
    rw [sendLoop_done _ _ (by decide)]
    rfl
  · intro rest
    rw [sendLoop_success c b _ _ (by decide) hc]
    rfl

/-- Witness for C5: a sink of three 500s, and a sink answering 204 first. -/
theorem claim_C5_witness :
    sendLoop [SinkResp.resp 500 (.error ()), SinkResp.resp 500 (.error ()),
        SinkResp.resp 500 (.error ())] sendInit
      = .ok false { attempt := 3, hits := 0, backoff := 16, posts := 3,
                    sleeps := [2, 4, 8] }
    ∧ sendLoop [SinkResp.resp 204 (.error ())] sendInit
      = .ok true { attempt := 0, hits := 0, backoff := 2, posts := 1,
                   sleeps := [] } := by
  have h := claim_C5 (SinkResp.resp 500 (.error ()))
    (Or.inr ⟨500, .error (), rfl, by decide, by decide, by decide⟩)
    204 (.error ()) (Or.inr rfl)
  exact ⟨h.1 [], h.2 []⟩

/-- C6: the claim says `send_discord_embed` never raises past its boundary for
any sink behaviour. The code violates this: the `except (ValueError,
KeyError)` clause around `float(resp.json().get("retry_after", backoff))`
does not cover `TypeError` (a 429 body `{"retry_after": null}`) nor
`AttributeError` (a 429 body that is valid JSON but not an object), so those
exceptions escape after the first POST instead of being folded into the
boolean result. -/
theorem claim_C6 :
    send_discord_embed [SinkResp.resp 429 (.ok (.obj [("retry_after", JVal.null)]))]
        = .exn .typeError { attempt := 0, hits := 1, backoff := 2, posts := 1,
                            sleeps := [] }
    ∧ send_discord_embed [SinkResp.resp 429 (.ok (.arr []))]
        = .exn .attributeError { attempt := 0, hits := 1, backoff := 2, posts := 1,
                                 sleeps := [] } :=
  ⟨rfl, rfl⟩

/-- C10: the retry loop always terminates within the claimed resource bounds —
for every response sequence at most 9 POSTs are issued, the attempt counter
never exceeds 3 and the rate-limit hit counter never exceeds 6. The "before
returning a boolean" part of the claim fails on the same slip as C6: a 429
whose JSON body is not an object makes the code propagate `AttributeError`
(after a single POST, within the bounds) instead of returning a boolean. -/
theorem claim_C10 :
    (∀ rs : List SinkResp,
        (outSt (send_discord_embed rs)).posts ≤ 9
        ∧ (outSt (send_discord_embed rs)).attempt ≤ 3
        ∧ (outSt (send_discord_embed rs)).hits ≤ 6)
    ∧ send_discord_embed [SinkResp.resp 429 (.ok (.num 1))]
        = .exn .attributeError { attempt := 0, hits := 1, backoff := 2, posts := 1,
                                 sleeps := [] } := by
  constructor
  · intro rs
    obtain ⟨p1, p2, p3⟩ := sendLoop_bounds rs sendInit (by decide) (by decide)
    refine ⟨?_, p2, p3⟩
    simpa [send_discord_embed, sendInit] using p1
  · rfl

/-- C8: the claim says neither probe lets an exception past its boundary for
ordinary network/protocol failures or unexpected response shapes. `check_loki`
indeed always returns a `(healthy, reason)` pair; but `check_grafana` calls
`data.get("database")` on whatever `resp.json()` returned, and when a 200
response carries valid JSON that is not an object (e.g. `[]`) this raises
`AttributeError`, which none of its `except` clauses cover — it escapes the
function. Invalid (non-parsing) JSON, by contrast, is caught and classified. -/
theorem claim_C8 :
    check_grafana (.resp 200 "[]" (.ok (.arr []))) "http://grafana:3000" 10
        = .error .attributeError
    ∧ (∀ (o : HttpOutcome) (u : String) (t : Nat),
        returnsNormally (check_loki o u t) = true)
    ∧ returnsNormally
        (check_grafana (.resp 200 "not json" (.error ())) "http://grafana:3000" 10)
        = true := by
  refine ⟨rfl, ?_, rfl⟩
  intro o u t
  cases o with
  | resp status text body =>
    simp only [check_loki]
    split
    · rfl
    · split <;> rfl
  | connError m => rfl
  | timeout => rfl
  | reqError m => rfl

/-- C9: the inter-cycle wait sleeps only in one-second slices, checking the
shutdown flag before each slice: every slept duration is exactly 1; if the
flag is observed set at check `k` the total number of slices slept is at most
`k` (so a shutdown requested during slice `k` is honoured within one further
slice, never waiting out the rest of the interval); and if the flag is never
set during the wait, the full configured interval of `n` slices is slept. -/
theorem claim_C9 (n : Nat) (f : Nat → Bool) :
    (∀ d ∈ interruptibleWait n f, d = 1)
    ∧ (∀ k, f k = true → (interruptibleWait n f).length ≤ k)
    ∧ ((∀ i, i < n → f i = false) → (interruptibleWait n f).length = n) := by
  refine ⟨?_, ?_, ?_⟩
  · exact waitFrom_all_one f n 0
  · intro k hk
    have h := waitFrom_length_le f k hk n 0 (Nat.zero_le _)
    simpa [interruptibleWait] using h
  · intro h
    have h2 := waitFrom_full f n 0 (fun m hm => by simpa using h m hm)
    simpa [interruptibleWait] using h2

/-- Witness for C9: a 3-slice interval with shutdown visible from check 2
waits at most 2 slices; with no shutdown, a 2-slice interval waits 2. -/
theorem claim_C9_witness :
    (interruptibleWait 3 (fun i => decide (2 ≤ i))).length ≤ 2
    ∧ (interruptibleWait 2 (fun _ => false)).length = 2 :=
  ⟨(claim_C9 3 (fun i => decide (2 ≤ i))).2.1 2 (by decide),
   (claim_C9 2 (fun _ => false)).2.2 (fun _ _ => rfl)⟩

end Argus
